import Mathlib

/-!
Shallow embedding of the BallsDex traveling-merchant cog
(`src/merchant/merchant/cog.py`).  Time is modelled in integer seconds,
money and prices as integers, and the Django stores as explicit lists in
a `DB` record.  Randomness (`random.choices`) is modelled by an injected
source `g : Nat → Nat`; draw number `step` uses `g step` reduced modulo
the pool's total weight.  Store faults are injected explicitly so that
rollback and partial-write behaviour can be stated.
-/

/-- Catalog entry (`MerchantItem` model).  Modelled from the spec:
the merchant package's `models.py` is not in `src/`; fields are those the
cog reads (`enabled`, `weight`, `price`, `ball`, `special`), matching
spec §3 MerchantItem. -/
structure MerchantItem where
  id : Nat
  enabled : Bool
  weight : Int
  price : Int
  ball : Nat
  special : Option Nat
deriving DecidableEq, Repr

/-- Singleton configuration (`MerchantSettings` model).  Modelled from the
spec: fields are those the cog reads, matching spec §3 MerchantSettings. -/
structure MerchantSettingsRec where
  pk : Nat
  enabled : Bool
  items_per_rotation : Nat
  rotation_minutes : Nat
  purchase_cooldown_seconds : Nat
  last_rotation_at : Option Nat
deriving DecidableEq, Repr

/-- Rotation record (`MerchantRotation` model).  Modelled from the spec:
identifier, `starts_at`, `ends_at` (spec §3 MerchantRotation). -/
structure MerchantRotation where
  id : Nat
  starts_at : Nat
  ends_at : Nat
deriving DecidableEq, Repr

/-- Rotation line item (`MerchantRotationItem` model); carries the joined
catalog item (the cog always queries with `select_related`).  Modelled
from the spec: spec §3 MerchantRotationItem. -/
structure MerchantRotationItem where
  id : Nat
  rotation_id : Nat
  item : MerchantItem
  price_snapshot : Int
deriving DecidableEq, Repr

/-- Player row from the external `bd_models` package.  Modelled from the
spec: identifier and currency balance (spec §3 Player). -/
structure PlayerRec where
  pk : Nat
  discord_id : Nat
  money : Int
deriving DecidableEq, Repr

/-- Ledger entry (`MerchantPurchase` model).  Modelled from the spec:
player reference, rotation-item reference, `created_at` (spec §3
MerchantPurchase). -/
structure MerchantPurchase where
  player_pk : Nat
  rotation_item_id : Nat
  created_at : Nat
deriving DecidableEq, Repr

/-- Inventory grant (`BallInstance` row from the external `bd_models`
package); fields are the ones the cog writes in `buy`. -/
structure BallInstanceRec where
  ball : Nat
  player_pk : Nat
  special : Option Nat
  server_id : Option Nat
  tradeable : Bool
deriving DecidableEq, Repr

/-- The persistent stores visible to the cog. -/
structure DB where
  settings : MerchantSettingsRec
  items : List MerchantItem
  rotations : List MerchantRotation
  rotationItems : List MerchantRotationItem
  players : List PlayerRec
  purchases : List MerchantPurchase
  ballInstances : List BallInstanceRec
deriving DecidableEq, Repr

/-- A store fault injected at one of the three persistence steps of
`_create_new_rotation` (which has no enclosing transaction). -/
inductive StoreFault where
  | rotationCreate
  | itemsCreate
  | settingsUpdate
deriving DecidableEq, Repr

/-- `max(1, i.weight)` from `_create_new_rotation` line 88: the effective
draw weight of a pool member. -/
def effWeight (i : MerchantItem) : Nat := (max 1 i.weight).toNat

/-- Sum of effective weights of a pool. -/
def totalWeight (pool : List MerchantItem) : Nat := (pool.map effWeight).sum

/-- One weighted draw: `random.choices(pool, weights, k=1)[0]`, modelled by
cumulative-weight selection at integer offset `r`. -/
def weightedPick : List MerchantItem → Nat → Option MerchantItem
  | [], _ => none
  | i :: rest, r => if r < effWeight i then some i else weightedPick rest (r - effWeight i)

/-- The weighted-selection-without-replacement loop of
`_create_new_rotation` lines 85-91: `k` draws, each over the remaining
pool (`pool.remove(choice)` removes the first element equal to the
choice; Django instances compare by pk, hence erasure by `id`). -/
def selectItems (g : Nat → Nat) : Nat → List MerchantItem → Nat → List MerchantItem
  | _, _, 0 => []
  | step, pool, Nat.succ k =>
    match weightedPick pool (g step % totalWeight pool) with
    | none => []
    | some c => c :: selectItems g (step + 1) (pool.eraseP (fun x => x.id == c.id)) k

/-- `MerchantItem.objects.filter(enabled=True)` (line 74). -/
def enabledItems (db : DB) : List MerchantItem := db.items.filter (·.enabled)

/-- Fresh primary key for a new rotation row. -/
def freshRotationId (db : DB) : Nat := (db.rotations.map (·.id)).foldr max 0 + 1

/-- Fresh primary key base for new rotation-item rows. -/
def freshEntryId (db : DB) : Nat := (db.rotationItems.map (·.id)).foldr max 0 + 1

/-- The rows built by the `abulk_create` comprehension (lines 99-105):
each selected item becomes a line item of rotation `rid` with
`price_snapshot = item.price`. -/
def mkEntries (rid : Nat) : Nat → List MerchantItem → List MerchantRotationItem
  | _, [] => []
  | base, i :: rest => ⟨base, rid, i, i.price⟩ :: mkEntries rid (base + 1) rest

/-- `_create_new_rotation` (lines 72-109) with an injected store fault.
The three persistence steps (`acreate` rotation, `abulk_create` items,
`aupdate` settings) run in autocommit with no enclosing transaction, so a
fault at a later step leaves the earlier steps' writes in place. -/
def createNewRotationF (db : DB) (now : Nat) (g : Nat → Nat) (fault : Option StoreFault) :
    Except Unit (Option MerchantRotation) × DB :=
  let available := enabledItems db
  if available.isEmpty then (.ok none, db)
  else
    let k := min db.settings.items_per_rotation available.length
    let sel := selectItems g 0 available k
    if fault = some .rotationCreate then (.error (), db)
    else
      let rot : MerchantRotation :=
        ⟨freshRotationId db, now, now + db.settings.rotation_minutes * 60⟩
      let db1 := { db with rotations := db.rotations ++ [rot] }
      if fault = some .itemsCreate then (.error (), db1)
      else
        let db2 := { db1 with rotationItems := db1.rotationItems ++ mkEntries rot.id (freshEntryId db) sel }
        if fault = some .settingsUpdate then (.error (), db2)
        else
          (.ok (some rot),
           { db2 with settings := { db2.settings with last_rotation_at := some now } })

/-- Tie-break fold realising `order_by("-starts_at").afirst()`. -/
def laterStart (a b : MerchantRotation) : MerchantRotation :=
  if a.starts_at < b.starts_at then b else a

/-- `_get_active_rotation` (lines 66-70): most recently started rotation
with `ends_at > now`. -/
def getActiveRotation (db : DB) (now : Nat) : Option MerchantRotation :=
  match db.rotations.filter (fun r => decide (now < r.ends_at)) with
  | [] => none
  | r :: rest => some (rest.foldl laterStart r)

/-- `ensure_rotation` (lines 51-64): under the rotation lock, return the
active rotation if one exists and is unexpired, else create a new one. -/
def ensureRotation (db : DB) (now : Nat) (g : Nat → Nat) (fault : Option StoreFault) :
    Except Unit (Option MerchantRotation) × DB :=
  if !db.settings.enabled then (.ok none, db)
  else
    match getActiveRotation db now with
    | some r => if now < r.ends_at then (.ok (some r), db) else createNewRotationF db now g fault
    | none => createNewRotationF db now g fault

/-- `_get_rotation_entries` (lines 111-114): line items of one rotation. -/
def rotationEntries (db : DB) (rot : MerchantRotation) : List MerchantRotationItem :=
  db.rotationItems.filter (fun e => e.rotation_id == rot.id)

/-- Tie-break fold realising `order_by("-created_at").afirst()`. -/
def laterPurchase (a b : MerchantPurchase) : MerchantPurchase :=
  if a.created_at < b.created_at then b else a

/-- Most recent ledger entry of a player (line 118). -/
def mostRecentPurchase (db : DB) (pk : Nat) : Option MerchantPurchase :=
  match db.purchases.filter (fun p => p.player_pk == pk) with
  | [] => none
  | p :: rest => some (rest.foldl laterPurchase p)

/-- `_get_cooldown_end` (lines 116-123): ready time of the player, or
`none` when there is no prior purchase or the ready time has passed. -/
def getCooldownEnd (db : DB) (now : Nat) (pk : Nat) (cooldown_seconds : Nat) : Option Nat :=
  match mostRecentPurchase db pk with
  | none => none
  | some p =>
    let ready := p.created_at + cooldown_seconds
    if now < ready then some ready else none

/-- Modelled from the spec: `Player.can_afford` lives in the external
`bd_models` package (spec §6 Player Store); spec §4.2 fixes its meaning:
balance below the price means the player cannot afford it. -/
def canAfford (money amount : Int) : Bool := amount ≤ money

/-- Lookup of a player row by Discord id. -/
def playerByDiscord (db : DB) (uid : Nat) : Option PlayerRec :=
  db.players.find? (fun p => p.discord_id == uid)

/-- Lookup of a player row by primary key
(`Player.objects.select_for_update().get(pk=...)`, line 197). -/
def playerByPk (db : DB) (pk : Nat) : Option PlayerRec :=
  db.players.find? (fun p => p.pk == pk)

/-- Fresh primary key for a new player row. -/
def freshPlayerPk (db : DB) : Nat := (db.players.map (·.pk)).foldr max 0 + 1

/-- `Player.objects.aget_or_create(discord_id=...)` (line 175).  Modelled
from the spec: the Player store is external; a freshly created player row
starts with a zero balance. -/
def getOrCreatePlayer (db : DB) (uid : Nat) : PlayerRec × DB :=
  match playerByDiscord db uid with
  | some p => (p, db)
  | none =>
    let p : PlayerRec := ⟨freshPlayerPk db, uid, 0⟩
    (p, { db with players := db.players ++ [p] })

/-- Balance debit `locked_player.money -= entry.price_snapshot` (line 204),
applied to the player row with the given pk. -/
def debitPlayer (db : DB) (pk : Nat) (price : Int) : DB :=
  { db with players :=
      db.players.map (fun p => if p.pk == pk then { p with money := p.money - price } else p) }

/-- Outcome of the `buy` command, one constructor per distinct reply. -/
inductive BuyOutcome where
  | disabled
  | noRotation
  | notFound
  | throttled (readyAt : Nat)
  | insufficientFundsAdvisory
  | insufficientFundsTxn
  | success
  | txnFailure
deriving DecidableEq, Repr

/-- The atomic purchase section of `buy` (lines 193-222): inside
`transaction.atomic()`, re-fetch the player under `select_for_update`,
re-verify affordability, debit, create the `BallInstance` grant
(`tradeable=True`), and append the ledger entry.  A store fault anywhere
in the unit of work makes the transaction roll back, leaving the stores
as they were when it started. -/
def buyTxn (db : DB) (now : Nat) (pk : Nat) (entry : MerchantRotationItem)
    (guildId : Option Nat) (fault : Bool) : BuyOutcome × DB :=
  if fault then (.txnFailure, db)
  else
    match playerByPk db pk with
    | none => (.txnFailure, db)
    | some lockedPlayer =>
      if !canAfford lockedPlayer.money entry.price_snapshot then (.insufficientFundsTxn, db)
      else
        let db1 := debitPlayer db pk entry.price_snapshot
        let inst : BallInstanceRec := ⟨entry.item.ball, pk, entry.item.special, guildId, true⟩
        let db2 := { db1 with ballInstances := db1.ballInstances ++ [inst] }
        let db3 := { db2 with purchases := db2.purchases ++ [⟨pk, entry.id, now⟩] }
        (.success, db3)

/-- The `buy` command (lines 158-222): precondition checks in source
order (disabled, no active rotation, id not in rotation, cooldown,
advisory funds check), then the atomic purchase section. -/
def buy (db : DB) (now : Nat) (uid : Nat) (item_id : Nat) (guildId : Option Nat)
    (fault : Bool) : BuyOutcome × DB :=
  let config := db.settings
  if !config.enabled then (.disabled, db)
  else
    match getActiveRotation db now with
    | none => (.noRotation, db)
    | some rotation =>
      match (rotationEntries db rotation).find? (fun e => e.id == item_id) with
      | none => (.notFound, db)
      | some entry =>
        let pr := getOrCreatePlayer db uid
        let player := pr.1
        let db1 := pr.2
        match getCooldownEnd db1 now player.pk config.purchase_cooldown_seconds with
        | some readyAt => (.throttled readyAt, db1)
        | none =>
          if !canAfford player.money entry.price_snapshot then (.insufficientFundsAdvisory, db1)
          else buyTxn db1 now player.pk entry guildId fault

/-- Outcome of the `view` command. -/
inductive ViewOutcome where
  | away
  | stock (entries : List MerchantRotationItem)
  | err
deriving DecidableEq, Repr

/-- The `view` command (lines 127-156): it calls `ensure_rotation` (so it
may create a rotation) and then lists the rotation's entries. -/
def view (db : DB) (now : Nat) (g : Nat → Nat) (fault : Option StoreFault) :
    ViewOutcome × DB :=
  match ensureRotation db now g fault with
  | (.ok (some rot), db1) => (.stock (rotationEntries db1 rot), db1)
  | (.ok none, db1) => (.away, db1)
  | (.error _, db1) => (.err, db1)

/-! ## Concrete fixtures used by witnesses and counterexamples -/

def itemA : MerchantItem := ⟨1, true, 5, 80, 7, none⟩

def rotA : MerchantRotation := ⟨1, 0, 3600⟩

def entryA : MerchantRotationItem := ⟨1, 1, itemA, 80⟩

def playerA : PlayerRec := ⟨1, 42, 100⟩

def dbBase : DB := ⟨⟨1, true, 1, 60, 30, none⟩, [itemA], [rotA], [entryA], [playerA], [], []⟩

def playerPoor : PlayerRec := ⟨1, 42, 10⟩

def dbPoor : DB := ⟨⟨1, true, 1, 60, 30, none⟩, [itemA], [rotA], [entryA], [playerPoor], [], []⟩

def rotOldW : MerchantRotation := ⟨1, 0, 100⟩

def rotActW : MerchantRotation := ⟨2, 200, 4000⟩

def eOldW : MerchantRotationItem := ⟨1, 1, itemA, 80⟩

def eActW : MerchantRotationItem := ⟨2, 2, itemA, 80⟩

/-- Store with an expired, superseded rotation whose line item id 1 is the
one requested, a broke player, and an active cooldown. -/
def dbSup : DB :=
  ⟨⟨1, true, 1, 60, 30, none⟩, [itemA], [rotOldW, rotActW], [eOldW, eActW],
   [⟨1, 42, 5⟩], [⟨1, 2, 250⟩], []⟩

/-- Store with the merchant disabled but an unexpired rotation present. -/
def dbDis : DB := ⟨⟨1, false, 1, 60, 30, none⟩, [itemA], [rotA], [entryA], [], [], []⟩

/-- Store with `items_per_rotation = 0` and one enabled catalog item. -/
def dbZero : DB := ⟨⟨1, true, 0, 60, 30, none⟩, [itemA], [], [], [], [], []⟩

/-- Store with one enabled catalog item and no rotation at all. -/
def dbFresh : DB := ⟨⟨1, true, 1, 60, 30, none⟩, [itemA], [], [], [playerA], [], []⟩

def itemB : MerchantItem := ⟨2, true, -3, 50, 8, some 4⟩

/-- Store with two enabled items (one with a non-positive weight) for the
selection witness. -/
def dbSel : DB := ⟨⟨1, true, 2, 60, 30, none⟩, [itemA, itemB], [], [], [], [], []⟩

/-! ## Helper lemmas -/

theorem foldl_laterStart_mem (rest : List MerchantRotation) (r : MerchantRotation) :
    rest.foldl laterStart r ∈ r :: rest := by
  induction rest generalizing r with
  | nil => simp
  | cons b rest ih =>
    have h := ih (laterStart r b)
    simp only [List.foldl_cons]
    rcases List.mem_cons.mp h with h' | h'
    · rw [h']
      unfold laterStart
      split
      · simp
      · simp
    · simp [List.mem_cons.mpr (Or.inr h')]

theorem getActiveRotation_spec (db : DB) (now : Nat) (r : MerchantRotation)
    (h : getActiveRotation db now = some r) : r ∈ db.rotations ∧ now < r.ends_at := by
  unfold getActiveRotation at h
  rcases hm : db.rotations.filter (fun r => decide (now < r.ends_at)) with _ | ⟨a, rest⟩
  · rw [hm] at h
    simp at h
  · rw [hm] at h
    simp only [Option.some.injEq] at h
    have hmem : r ∈ a :: rest := h ▸ foldl_laterStart_mem rest a
    rw [← hm] at hmem
    have := List.mem_filter.mp hmem
    exact ⟨this.1, by simpa using this.2⟩

theorem getActiveRotation_isSome (db : DB) (now : Nat)
    (h : ∃ r ∈ db.rotations, now < r.ends_at) :
    ∃ r, getActiveRotation db now = some r := by
  obtain ⟨r, hr, hlt⟩ := h
  rcases hm : db.rotations.filter (fun r => decide (now < r.ends_at)) with _ | ⟨a, rest⟩
  · exfalso
    have hmem : r ∈ db.rotations.filter (fun r => decide (now < r.ends_at)) :=
      List.mem_filter.mpr ⟨hr, by simpa using hlt⟩
    rw [hm] at hmem
    simp at hmem
  · refine ⟨rest.foldl laterStart a, ?_⟩
    unfold getActiveRotation
    rw [hm]

theorem find?_debit (l : List PlayerRec) (pk : Nat) (price : Int) :
    ((l.map fun p => if p.pk == pk then { p with money := p.money - price } else p).find?
        (fun p => p.pk == pk))
      = (l.find? fun p => p.pk == pk).map fun p => { p with money := p.money - price } := by
  induction l with
  | nil => rfl
  | cons p l ih =>
    cases hpk : (p.pk == pk) with
    | true =>
      have hpk' : p.pk = pk := by simpa using hpk
      simp [List.find?_cons, hpk', ih]
    | false =>
      have hneg : ¬((p.pk == pk) = true) := by simp [hpk]
      rw [List.map_cons, if_neg hneg]
      simp only [List.find?_cons, hpk]
      exact ih

/-! ## C1: effects of a successful purchase -/

/-- C1: a purchase of a valid line item by a player with sufficient funds
and no active cooldown succeeds, decreases the player's balance by exactly
the line item's `price_snapshot`, creates exactly one inventory grant
(tradeable by default) for that player, and appends exactly one ledger
entry referencing that player and line item. -/
theorem merchant_buy_success_effects
    (db : DB) (now uid item_id : Nat) (guild : Option Nat)
    (rot : MerchantRotation) (entry : MerchantRotationItem) (player : PlayerRec)
    (hen : db.settings.enabled = true)
    (hrot : getActiveRotation db now = some rot)
    (hent : (rotationEntries db rot).find? (fun e => e.id == item_id) = some entry)
    (hpd : playerByDiscord db uid = some player)
    (hpk : playerByPk db player.pk = some player)
    (hcool : getCooldownEnd db now player.pk db.settings.purchase_cooldown_seconds = none)
    (haff : canAfford player.money entry.price_snapshot = true) :
    (buy db now uid item_id guild false).1 = .success ∧
    (buy db now uid item_id guild false).2.players =
      db.players.map
        (fun p => if p.pk == player.pk then { p with money := p.money - entry.price_snapshot } else p) ∧
    playerByPk (buy db now uid item_id guild false).2 player.pk =
      some { player with money := player.money - entry.price_snapshot } ∧
    (buy db now uid item_id guild false).2.ballInstances =
      db.ballInstances ++ [⟨entry.item.ball, player.pk, entry.item.special, guild, true⟩] ∧
    (buy db now uid item_id guild false).2.purchases =
      db.purchases ++ [⟨player.pk, entry.id, now⟩] := by
  have h1 : buy db now uid item_id guild false = buyTxn db now player.pk entry guild false := by
    simp [buy, hen, hrot, hent, hpd, hcool, haff, getOrCreatePlayer]
  have h2 : buyTxn db now player.pk entry guild false =
      (.success,
       { db with
          players := db.players.map
            (fun p => if p.pk == player.pk then { p with money := p.money - entry.price_snapshot } else p),
          ballInstances := db.ballInstances ++ [⟨entry.item.ball, player.pk, entry.item.special, guild, true⟩],
          purchases := db.purchases ++ [⟨player.pk, entry.id, now⟩] }) := by
    simp [buyTxn, hpk, haff, debitPlayer]
  rw [h1, h2]
  refine ⟨rfl, rfl, ?_, rfl, rfl⟩
  unfold playerByPk
  simp only
  rw [find?_debit]
  have hfind : db.players.find? (fun p => p.pk == player.pk) = some player := hpk
  rw [hfind]
  rfl

/-- C1 witness: on the concrete store `dbBase`, player 42 buys line item 1
for 80 and ends with balance 20, one grant and one ledger entry. -/
theorem merchant_buy_success_effects_witness :
    (buy dbBase 10 42 1 (some 99) false).1 = .success ∧
    (buy dbBase 10 42 1 (some 99) false).2.players =
      dbBase.players.map
        (fun p => if p.pk == playerA.pk then { p with money := p.money - entryA.price_snapshot } else p) ∧
    playerByPk (buy dbBase 10 42 1 (some 99) false).2 playerA.pk =
      some { playerA with money := playerA.money - entryA.price_snapshot } ∧
    (buy dbBase 10 42 1 (some 99) false).2.ballInstances =
      dbBase.ballInstances ++ [⟨entryA.item.ball, playerA.pk, entryA.item.special, some 99, true⟩] ∧
    (buy dbBase 10 42 1 (some 99) false).2.purchases =
      dbBase.purchases ++ [⟨playerA.pk, entryA.id, 10⟩] :=
  merchant_buy_success_effects dbBase 10 42 1 (some 99) rotA entryA playerA
    (by decide) (by decide) (by decide) (by decide) (by decide) (by decide) (by decide)

/-! ## C2: authoritative re-check and rollback inside the transaction -/

/-- C2: the purchase transaction re-reads the player under the
per-player lock and re-verifies affordability before any debit: the
authoritative insufficient-funds case aborts with every store unchanged,
a store fault during the unit of work rolls everything back unchanged,
success is only possible when the lock-time balance covers the price, and
every non-success outcome leaves the stores exactly as they were. -/
theorem merchant_txn_reverify_and_rollback
    (db : DB) (now pk : Nat) (entry : MerchantRotationItem) (guild : Option Nat) :
    (∀ q, playerByPk db pk = some q → canAfford q.money entry.price_snapshot = false →
      buyTxn db now pk entry guild false = (.insufficientFundsTxn, db)) ∧
    (buyTxn db now pk entry guild true = (.txnFailure, db)) ∧
    (∀ fault db', buyTxn db now pk entry guild fault = (.success, db') →
      ∃ q, playerByPk db pk = some q ∧ canAfford q.money entry.price_snapshot = true) ∧
    (∀ fault res db', buyTxn db now pk entry guild fault = (res, db') → res ≠ .success →
      db' = db) := by
  refine ⟨?_, ?_, ?_, ?_⟩
  · intro q hq hnaff
    simp [buyTxn, hq, hnaff]
  · rfl
  · intro fault db' h
    cases fault with
    | true => exact absurd (congrArg Prod.fst h) (by simp [buyTxn])
    | false =>
      rcases hq : playerByPk db pk with _ | q
      · rw [show buyTxn db now pk entry guild false = (.txnFailure, db) by simp [buyTxn, hq]] at h
        exact absurd (congrArg Prod.fst h) (by simp)
      · cases hca : canAfford q.money entry.price_snapshot with
        | true => exact ⟨q, hq ▸ rfl, hca⟩
        | false =>
          rw [show buyTxn db now pk entry guild false = (.insufficientFundsTxn, db) by
            simp [buyTxn, hq, hca]] at h
          exact absurd (congrArg Prod.fst h) (by simp)
  · intro fault res db' h hne
    cases fault with
    | true => exact (congrArg Prod.snd h).symm
    | false =>
      rcases hq : playerByPk db pk with _ | q
      · rw [show buyTxn db now pk entry guild false = (.txnFailure, db) by simp [buyTxn, hq]] at h
        exact (congrArg Prod.snd h).symm
      · cases hca : canAfford q.money entry.price_snapshot with
        | false =>
          rw [show buyTxn db now pk entry guild false = (.insufficientFundsTxn, db) by
            simp [buyTxn, hq, hca]] at h
          exact (congrArg Prod.snd h).symm
        | true =>
          exfalso
          apply hne
          have hfst : (buyTxn db now pk entry guild false).1 = .success := by
            simp [buyTxn, hq, hca]
          rw [h] at hfst
          simpa using hfst

/-- C2 witness: on `dbPoor` (balance 10, price 80) the authoritative check
aborts with the store unchanged, and a faulted unit of work rolls back. -/
theorem merchant_txn_reverify_and_rollback_witness :
    buyTxn dbPoor 10 1 entryA none false = (.insufficientFundsTxn, dbPoor) ∧
    buyTxn dbPoor 10 1 entryA none true = (.txnFailure, dbPoor) :=
  ⟨(merchant_txn_reverify_and_rollback dbPoor 10 1 entryA none).1 playerPoor
      (by decide) (by decide),
   (merchant_txn_reverify_and_rollback dbPoor 10 1 entryA none).2.1⟩

/-! ## Evaluation lemmas for `buy`, one per precondition branch -/

theorem buy_eval_disabled (db : DB) (now uid item_id : Nat) (guild : Option Nat) (fault : Bool)
    (h : db.settings.enabled = false) :
    buy db now uid item_id guild fault = (.disabled, db) := by
  simp [buy, h]

theorem buy_eval_noRot (db : DB) (now uid item_id : Nat) (guild : Option Nat) (fault : Bool)
    (hen : db.settings.enabled = true) (hrot : getActiveRotation db now = none) :
    buy db now uid item_id guild fault = (.noRotation, db) := by
  simp [buy, hen, hrot]

theorem buy_eval_notFound (db : DB) (now uid item_id : Nat) (guild : Option Nat) (fault : Bool)
    (rot : MerchantRotation)
    (hen : db.settings.enabled = true) (hrot : getActiveRotation db now = some rot)
    (hfind : (rotationEntries db rot).find? (fun e => e.id == item_id) = none) :
    buy db now uid item_id guild fault = (.notFound, db) := by
  simp [buy, hen, hrot, hfind]

theorem buy_eval_throttled (db : DB) (now uid item_id : Nat) (guild : Option Nat) (fault : Bool)
    (rot : MerchantRotation) (entry : MerchantRotationItem) (player : PlayerRec) (t : Nat)
    (hen : db.settings.enabled = true) (hrot : getActiveRotation db now = some rot)
    (hent : (rotationEntries db rot).find? (fun e => e.id == item_id) = some entry)
    (hpd : playerByDiscord db uid = some player)
    (hcool : getCooldownEnd db now player.pk db.settings.purchase_cooldown_seconds = some t) :
    buy db now uid item_id guild fault = (.throttled t, db) := by
  simp [buy, hen, hrot, hent, hpd, getOrCreatePlayer, hcool]

theorem buy_eval_advisory (db : DB) (now uid item_id : Nat) (guild : Option Nat) (fault : Bool)
    (rot : MerchantRotation) (entry : MerchantRotationItem) (player : PlayerRec)
    (hen : db.settings.enabled = true) (hrot : getActiveRotation db now = some rot)
    (hent : (rotationEntries db rot).find? (fun e => e.id == item_id) = some entry)
    (hpd : playerByDiscord db uid = some player)
    (hcool : getCooldownEnd db now player.pk db.settings.purchase_cooldown_seconds = none)
    (haff : canAfford player.money entry.price_snapshot = false) :
    buy db now uid item_id guild fault = (.insufficientFundsAdvisory, db) := by
  simp [buy, hen, hrot, hent, hpd, getOrCreatePlayer, hcool, haff]

theorem buy_eval_txn (db : DB) (now uid item_id : Nat) (guild : Option Nat) (fault : Bool)
    (rot : MerchantRotation) (entry : MerchantRotationItem) (player : PlayerRec)
    (hen : db.settings.enabled = true) (hrot : getActiveRotation db now = some rot)
    (hent : (rotationEntries db rot).find? (fun e => e.id == item_id) = some entry)
    (hpd : playerByDiscord db uid = some player)
    (hcool : getCooldownEnd db now player.pk db.settings.purchase_cooldown_seconds = none)
    (haff : canAfford player.money entry.price_snapshot = true) :
    buy db now uid item_id guild fault = buyTxn db now player.pk entry guild fault := by
  simp [buy, hen, hrot, hent, hpd, getOrCreatePlayer, hcool, haff]

theorem buyTxn_fst_ne_throttled (db : DB) (now pk : Nat) (entry : MerchantRotationItem)
    (guild : Option Nat) (fault : Bool) (t : Nat) :
    (buyTxn db now pk entry guild fault).1 ≠ .throttled t := by
  cases fault with
  | true => simp [buyTxn]
  | false =>
    rcases hq : playerByPk db pk with _ | q
    · simp [buyTxn, hq]
    · cases hca : canAfford q.money entry.price_snapshot with
      | false => simp [buyTxn, hq, hca]
      | true => simp [buyTxn, hq, hca]

theorem buy_fst_ne_throttled_of_no_cooldown
    (db : DB) (now uid item_id : Nat) (guild : Option Nat) (fault : Bool)
    (rot : MerchantRotation) (entry : MerchantRotationItem) (player : PlayerRec)
    (hen : db.settings.enabled = true) (hrot : getActiveRotation db now = some rot)
    (hent : (rotationEntries db rot).find? (fun e => e.id == item_id) = some entry)
    (hpd : playerByDiscord db uid = some player)
    (hcool : getCooldownEnd db now player.pk db.settings.purchase_cooldown_seconds = none) :
    ∀ t, (buy db now uid item_id guild fault).1 ≠ .throttled t := by
  intro t
  cases hca : canAfford player.money entry.price_snapshot with
  | false =>
    rw [buy_eval_advisory db now uid item_id guild fault rot entry player hen hrot hent hpd hcool hca]
    simp
  | true =>
    rw [buy_eval_txn db now uid item_id guild fault rot entry player hen hrot hent hpd hcool hca]
    exact buyTxn_fst_ne_throttled db now player.pk entry guild fault t

/-! ## C7: order of the precondition checks -/

/-- C7: `buy` checks its five preconditions in source order — merchant
disabled, no active rotation, id not in the active rotation, cooldown,
insufficient funds — each yielding its distinct rejection; in particular a
line item id of an expired, superseded rotation is rejected as not found
even when the player is also on cooldown and cannot afford the price. -/
theorem merchant_buy_precondition_order
    (db : DB) (now uid item_id : Nat) (guild : Option Nat) (fault : Bool)
    (rot rotOld : MerchantRotation) (entry eOld : MerchantRotationItem)
    (player : PlayerRec) (t : Nat) :
    (db.settings.enabled = false → buy db now uid item_id guild fault = (.disabled, db)) ∧
    (db.settings.enabled = true → getActiveRotation db now = none →
      buy db now uid item_id guild fault = (.noRotation, db)) ∧
    (db.settings.enabled = true → getActiveRotation db now = some rot →
      (rotationEntries db rot).find? (fun e => e.id == item_id) = none →
      buy db now uid item_id guild fault = (.notFound, db)) ∧
    (db.settings.enabled = true → getActiveRotation db now = some rot →
      (rotationEntries db rot).find? (fun e => e.id == item_id) = some entry →
      playerByDiscord db uid = some player →
      getCooldownEnd db now player.pk db.settings.purchase_cooldown_seconds = some t →
      buy db now uid item_id guild fault = (.throttled t, db)) ∧
    (db.settings.enabled = true → getActiveRotation db now = some rot →
      (rotationEntries db rot).find? (fun e => e.id == item_id) = some entry →
      playerByDiscord db uid = some player →
      getCooldownEnd db now player.pk db.settings.purchase_cooldown_seconds = none →
      canAfford player.money entry.price_snapshot = false →
      buy db now uid item_id guild fault = (.insufficientFundsAdvisory, db)) ∧
    (db.settings.enabled = true → getActiveRotation db now = some rot →
      rotOld ∈ db.rotations → rotOld.ends_at ≤ now →
      eOld ∈ db.rotationItems → eOld.rotation_id = rotOld.id → eOld.id = item_id →
      (∀ e ∈ rotationEntries db rot, e.id ≠ item_id) →
      buy db now uid item_id guild fault = (.notFound, db)) := by
  refine ⟨?_, ?_, ?_, ?_, ?_, ?_⟩
  · intro h
    exact buy_eval_disabled db now uid item_id guild fault h
  · intro hen hrot
    exact buy_eval_noRot db now uid item_id guild fault hen hrot
  · intro hen hrot hfind
    exact buy_eval_notFound db now uid item_id guild fault rot hen hrot hfind
  · intro hen hrot hent hpd hcool
    exact buy_eval_throttled db now uid item_id guild fault rot entry player t hen hrot hent hpd hcool
  · intro hen hrot hent hpd hcool haff
    exact buy_eval_advisory db now uid item_id guild fault rot entry player hen hrot hent hpd hcool haff
  · intro hen hrot _ _ _ _ _ hnone
    have hfind : (rotationEntries db rot).find? (fun e => e.id == item_id) = none := by
      rw [List.find?_eq_none]
      intro e he
      simpa using hnone e he
    exact buy_eval_notFound db now uid item_id guild fault rot hen hrot hfind

/-- C7 witness: on `dbSup` the requested id 1 belongs only to the expired
rotation; although the player is broke and on cooldown, `buy` rejects with
not-found and no store changes. -/
theorem merchant_buy_precondition_order_witness :
    buy dbSup 260 42 1 none false = (.notFound, dbSup) :=
  (merchant_buy_precondition_order dbSup 260 42 1 none false rotActW rotOldW entryA eOldW
      playerA 0).2.2.2.2.2
    (by decide) (by decide) (by decide) (by decide) (by decide) (by decide) (by decide) (by decide)

/-! ## C8: throttling is exactly the cooldown condition -/

/-- C8: once the merchant is enabled, a rotation is active, the id is
valid and the player row is resolved, `buy` rejects as throttled exactly
when the player's most recent ledger entry has
`created_at + cooldown_seconds` strictly in the future, it then reports
exactly that ready time, and a player with no prior purchase is never
throttled. -/
theorem merchant_buy_throttled_iff
    (db : DB) (now uid item_id : Nat) (guild : Option Nat) (fault : Bool)
    (rot : MerchantRotation) (entry : MerchantRotationItem) (player : PlayerRec)
    (hen : db.settings.enabled = true)
    (hrot : getActiveRotation db now = some rot)
    (hent : (rotationEntries db rot).find? (fun e => e.id == item_id) = some entry)
    (hpd : playerByDiscord db uid = some player) :
    (mostRecentPurchase db player.pk = none →
      ∀ t, (buy db now uid item_id guild fault).1 ≠ .throttled t) ∧
    (∀ p, mostRecentPurchase db player.pk = some p →
      ((buy db now uid item_id guild fault).1 =
          .throttled (p.created_at + db.settings.purchase_cooldown_seconds) ↔
        now < p.created_at + db.settings.purchase_cooldown_seconds)) ∧
    (∀ p t, mostRecentPurchase db player.pk = some p →
      (buy db now uid item_id guild fault).1 = .throttled t →
      t = p.created_at + db.settings.purchase_cooldown_seconds ∧
      now < p.created_at + db.settings.purchase_cooldown_seconds) := by
  refine ⟨?_, ?_, ?_⟩
  · intro hno t
    have hcool : getCooldownEnd db now player.pk db.settings.purchase_cooldown_seconds = none := by
      unfold getCooldownEnd
      rw [hno]
    exact buy_fst_ne_throttled_of_no_cooldown db now uid item_id guild fault rot entry player
      hen hrot hent hpd hcool t
  · intro p hp
    by_cases hlt : now < p.created_at + db.settings.purchase_cooldown_seconds
    · have hcool : getCooldownEnd db now player.pk db.settings.purchase_cooldown_seconds =
          some (p.created_at + db.settings.purchase_cooldown_seconds) := by
        unfold getCooldownEnd
        rw [hp]
        simp [hlt]
      rw [buy_eval_throttled db now uid item_id guild fault rot entry player _ hen hrot hent hpd hcool]
      simp [hlt]
    · have hcool : getCooldownEnd db now player.pk db.settings.purchase_cooldown_seconds = none := by
        unfold getCooldownEnd
        rw [hp]
        simp [hlt]
      constructor
      · intro hth
        exact absurd hth (buy_fst_ne_throttled_of_no_cooldown db now uid item_id guild fault
          rot entry player hen hrot hent hpd hcool _)
      · intro h
        exact absurd h hlt
  · intro p t hp hth
    by_cases hlt : now < p.created_at + db.settings.purchase_cooldown_seconds
    · have hcool : getCooldownEnd db now player.pk db.settings.purchase_cooldown_seconds =
          some (p.created_at + db.settings.purchase_cooldown_seconds) := by
        unfold getCooldownEnd
        rw [hp]
        simp [hlt]
      rw [buy_eval_throttled db now uid item_id guild fault rot entry player _
        hen hrot hent hpd hcool] at hth
      simp only at hth
      cases hth
      exact ⟨rfl, hlt⟩
    · have hcool : getCooldownEnd db now player.pk db.settings.purchase_cooldown_seconds = none := by
        unfold getCooldownEnd
        rw [hp]
        simp [hlt]
      exact absurd hth (buy_fst_ne_throttled_of_no_cooldown db now uid item_id guild fault
        rot entry player hen hrot hent hpd hcool t)

/-- C8 witness: on `dbSup` (last purchase at 250, cooldown 30) buying the
valid id 2 at time 260 is throttled with ready time exactly 280, and the
iff instance holds. -/
theorem merchant_buy_throttled_iff_witness :
    ((buy dbSup 260 42 2 none false).1 = .throttled 280 ↔ 260 < 280) ∧
    (buy dbSup 260 42 2 none false).1 = .throttled 280 := by
  have h := (merchant_buy_throttled_iff dbSup 260 42 2 none false rotActW eActW ⟨1, 42, 5⟩
    (by decide) (by decide) (by decide) (by decide)).2.1 ⟨1, 2, 250⟩ (by decide)
  exact ⟨h, h.mpr (by decide)⟩

/-! ## Evaluation lemmas for rotation creation -/

theorem createNewRotation_ok (db : DB) (now : Nat) (g : Nat → Nat)
    (hne : enabledItems db ≠ []) :
    createNewRotationF db now g none =
      (.ok (some ⟨freshRotationId db, now, now + db.settings.rotation_minutes * 60⟩),
       { db with
          rotations := db.rotations ++ [⟨freshRotationId db, now, now + db.settings.rotation_minutes * 60⟩],
          rotationItems := db.rotationItems ++
            mkEntries (freshRotationId db) (freshEntryId db)
              (selectItems g 0 (enabledItems db)
                (min db.settings.items_per_rotation (enabledItems db).length)),
          settings := { db.settings with last_rotation_at := some now } }) := by
  have h : (enabledItems db).isEmpty = false := by
    cases h' : enabledItems db with
    | nil => exact absurd h' hne
    | cons a l => rfl
  simp [createNewRotationF, h]

theorem ensureRotation_none_active (db : DB) (now : Nat) (g : Nat → Nat)
    (fault : Option StoreFault)
    (hen : db.settings.enabled = true) (hnone : getActiveRotation db now = none) :
    ensureRotation db now g fault = createNewRotationF db now g fault := by
  simp [ensureRotation, hen, hnone]

/-! ## C5: `ensure_rotation` with an unexpired rotation -/

/-- C5 counterexample: in `dbDis` the merchant is disabled while an
unexpired rotation exists, and `ensure_rotation` returns no rotation at
all (rather than that rotation), so the claim fails as universally
stated. -/
theorem merchant_ensure_unexpired_cex :
    (∃ r ∈ dbDis.rotations, 10 < r.ends_at) ∧
    (ensureRotation dbDis 10 (fun _ => 0) none).1 = .ok none ∧
    ∀ r ∈ dbDis.rotations, (ensureRotation dbDis 10 (fun _ => 0) none).1 ≠ .ok (some r) := by
  refine ⟨⟨rotA, by decide, by decide⟩, rfl, ?_⟩
  intro r _ h
  rw [show (ensureRotation dbDis 10 (fun _ => 0) none).1 = .ok none from rfl] at h
  simp at h

/-- C5 (amended): when the merchant is ENABLED and an unexpired rotation
exists, `ensure_rotation` returns the active (most recently started
unexpired) rotation with every store unchanged, and calling it again on
the resulting state returns the same rotation again. -/
theorem merchant_ensure_unexpired_idempotent
    (db : DB) (now : Nat) (g : Nat → Nat) (fault : Option StoreFault)
    (hen : db.settings.enabled = true)
    (hex : ∃ r ∈ db.rotations, now < r.ends_at) :
    ∃ r, getActiveRotation db now = some r ∧ r ∈ db.rotations ∧ now < r.ends_at ∧
      ensureRotation db now g fault = (.ok (some r), db) ∧
      ensureRotation (ensureRotation db now g fault).2 now g fault = (.ok (some r), db) := by
  obtain ⟨r, hr⟩ := getActiveRotation_isSome db now hex
  obtain ⟨hmem, hlt⟩ := getActiveRotation_spec db now r hr
  have heq : ensureRotation db now g fault = (.ok (some r), db) := by
    simp [ensureRotation, hen, hr, hlt]
  refine ⟨r, hr, hmem, hlt, heq, ?_⟩
  rw [heq]
  exact heq

/-- C5 witness: on `dbBase` at time 10 the unexpired rotation `rotA` is
returned unchanged and a second call returns it again. -/
theorem merchant_ensure_unexpired_idempotent_witness :
    ∃ r, getActiveRotation dbBase 10 = some r ∧ r ∈ dbBase.rotations ∧ 10 < r.ends_at ∧
      ensureRotation dbBase 10 (fun _ => 0) none = (.ok (some r), dbBase) ∧
      ensureRotation (ensureRotation dbBase 10 (fun _ => 0) none).2 10 (fun _ => 0) none =
        (.ok (some r), dbBase) :=
  merchant_ensure_unexpired_idempotent dbBase 10 (fun _ => 0) none (by decide)
    ⟨rotA, by decide, by decide⟩

/-! ## C10: which user paths call `ensure_rotation` -/

/-- C10 counterexample: in `dbFresh` (enabled merchant, nonempty catalog,
no rotation) `ensure_rotation` — the path `view` takes — creates a
rotation, but `buy` replies that there is no active rotation and leaves
the stores untouched: `buy` does not call `ensure_rotation`. -/
theorem merchant_buy_calls_ensure_cex :
    (ensureRotation dbFresh 5 (fun _ => 0) none).2.rotations.length = 1 ∧
    buy dbFresh 5 42 1 none false = (.noRotation, dbFresh) ∧
    dbFresh.rotations = [] := by
  refine ⟨rfl, by decide, rfl⟩

/-- C10 (amended): only the view request calls `ensure_rotation` (and so
creates a fresh rotation when none is active); the buy request only reads
the currently active rotation and, when none exists, rejects with
"no active rotation" and creates nothing. -/
theorem merchant_view_ensures_buy_does_not
    (db : DB) (now uid item_id : Nat) (guild : Option Nat) (fault : Bool) (g : Nat → Nat)
    (hen : db.settings.enabled = true)
    (hnone : getActiveRotation db now = none) :
    buy db now uid item_id guild fault = (.noRotation, db) ∧
    (enabledItems db ≠ [] →
      ∃ rot db', view db now g none = (.stock (rotationEntries db' rot), db') ∧
        db'.rotations = db.rotations ++ [rot]) := by
  refine ⟨buy_eval_noRot db now uid item_id guild fault hen hnone, ?_⟩
  intro hne
  have hens : ensureRotation db now g none = createNewRotationF db now g none :=
    ensureRotation_none_active db now g none hen hnone
  have hcr := createNewRotation_ok db now g hne
  refine ⟨⟨freshRotationId db, now, now + db.settings.rotation_minutes * 60⟩,
    (createNewRotationF db now g none).2, ?_, ?_⟩
  · unfold view
    rw [hens, hcr]
  · rw [hcr]

/-- C10 witness: on `dbFresh`, `buy` rejects and creates nothing while
`view` creates and lists a fresh rotation. -/
theorem merchant_view_ensures_buy_does_not_witness :
    buy dbFresh 5 42 1 none false = (.noRotation, dbFresh) ∧
    (enabledItems dbFresh ≠ [] →
      ∃ rot db', view dbFresh 5 (fun _ => 0) none = (.stock (rotationEntries db' rot), db') ∧
        db'.rotations = dbFresh.rotations ++ [rot]) :=
  merchant_view_ensures_buy_does_not dbFresh 5 42 1 none false (fun _ => 0)
    (by decide) (by decide)

/-! ## C4: rotation creation is not atomic -/

/-- C4: evaluating `_create_new_rotation` with a store fault at the
`abulk_create` step shows the claim's atomicity fails on the code: the
rotation row stays persisted with zero line items, observable partial
state (there is no enclosing transaction in lines 93-107). -/
theorem merchant_rotation_creation_not_atomic :
    (createNewRotationF dbFresh 5 (fun _ => 0) (some .itemsCreate)).1 = .error () ∧
    ∃ r, r ∈ (createNewRotationF dbFresh 5 (fun _ => 0) (some .itemsCreate)).2.rotations ∧
      rotationEntries (createNewRotationF dbFresh 5 (fun _ => 0) (some .itemsCreate)).2 r = [] ∧
      (createNewRotationF dbFresh 5 (fun _ => 0) (some .itemsCreate)).2.rotations ≠
        dbFresh.rotations := by
  exact ⟨rfl, ⟨1, 5, 3605⟩, by decide, by decide, by decide⟩

/-! ## Weighted-selection lemmas -/

theorem effWeight_pos (i : MerchantItem) : 0 < effWeight i := by
  unfold effWeight
  have h := le_max_left (1 : Int) i.weight
  omega

theorem totalWeight_cons (i : MerchantItem) (rest : List MerchantItem) :
    totalWeight (i :: rest) = effWeight i + totalWeight rest := by
  simp [totalWeight]

theorem totalWeight_pos (pool : List MerchantItem) (h : pool ≠ []) : 0 < totalWeight pool := by
  cases pool with
  | nil => exact absurd rfl h
  | cons i rest =>
    rw [totalWeight_cons]
    exact Nat.lt_of_lt_of_le (effWeight_pos i) (Nat.le_add_right _ _)

theorem weightedPick_mem (pool : List MerchantItem) (r : Nat) (c : MerchantItem)
    (h : weightedPick pool r = some c) : c ∈ pool := by
  induction pool generalizing r with
  | nil => simp [weightedPick] at h
  | cons i rest ih =>
    unfold weightedPick at h
    split at h
    · cases h
      exact List.mem_cons_self _ _
    · exact List.mem_cons_of_mem _ (ih _ h)

theorem weightedPick_isSome (pool : List MerchantItem) (r : Nat)
    (h : r < totalWeight pool) : ∃ c, weightedPick pool r = some c := by
  induction pool generalizing r with
  | nil => simp [totalWeight] at h
  | cons i rest ih =>
    unfold weightedPick
    by_cases hr : r < effWeight i
    · exact ⟨i, if_pos hr⟩
    · rw [if_neg hr]
      apply ih
      rw [totalWeight_cons] at h
      omega

theorem weightedPick_shift (i : MerchantItem) (rest : List MerchantItem) (r : Nat) :
    weightedPick (i :: rest) (effWeight i + r) = weightedPick rest r := by
  have hnlt : ¬(effWeight i + r < effWeight i) := by omega
  conv_lhs => rw [weightedPick]
  rw [if_neg hnlt, Nat.add_sub_cancel_left]

theorem mem_eraseP_of_nodup_ids (pool : List MerchantItem) (cid : Nat)
    (hnd : (pool.map (·.id)).Nodup) (x : MerchantItem)
    (hx : x ∈ pool.eraseP (fun y => y.id == cid)) : x ∈ pool ∧ x.id ≠ cid := by
  induction pool with
  | nil => simp [List.eraseP] at hx
  | cons i rest ih =>
    rw [List.eraseP_cons] at hx
    cases hid : (i.id == cid) with
    | true =>
      rw [hid] at hx
      simp only [cond] at hx
      have hieq : i.id = cid := by simpa using hid
      have hini : i.id ∉ rest.map (·.id) := (List.nodup_cons.mp (by simpa using hnd)).1
      refine ⟨List.mem_cons_of_mem _ hx, ?_⟩
      intro hxid
      exact hini (hieq ▸ hxid ▸ List.mem_map_of_mem _ hx)
    | false =>
      rw [hid] at hx
      simp only [cond, List.mem_cons] at hx
      rcases hx with rfl | hx
      · exact ⟨List.mem_cons_self _ _, by simpa using hid⟩
      · have hnd' : (rest.map (·.id)).Nodup := (List.nodup_cons.mp (by simpa using hnd)).2
        obtain ⟨hmem, hne⟩ := ih hnd' hx
        exact ⟨List.mem_cons_of_mem _ hmem, hne⟩

theorem nodup_ids_eraseP (pool : List MerchantItem) (p : MerchantItem → Bool)
    (hnd : (pool.map (·.id)).Nodup) : ((pool.eraseP p).map (·.id)).Nodup :=
  List.Nodup.sublist (List.Sublist.map _ (List.eraseP_sublist pool)) hnd

theorem selectItems_length (g : Nat → Nat) (step : Nat) (pool : List MerchantItem) (k : Nat)
    (hk : k ≤ pool.length) : (selectItems g step pool k).length = k := by
  induction k generalizing step pool with
  | zero => rfl
  | succ k ih =>
    have hne : pool ≠ [] := by
      intro h
      rw [h] at hk
      simp at hk
    have hpos := totalWeight_pos pool hne
    have hr : g step % totalWeight pool < totalWeight pool := Nat.mod_lt _ hpos
    obtain ⟨c, hc⟩ := weightedPick_isSome pool _ hr
    have hcm := weightedPick_mem pool _ c hc
    have hlen : (pool.eraseP (fun x => x.id == c.id)).length = pool.length - 1 :=
      List.length_eraseP_of_mem hcm (by simp)
    have htail : (selectItems g (step + 1) (pool.eraseP (fun x => x.id == c.id)) k).length = k := by
      apply ih
      rw [hlen]
      omega
    unfold selectItems
    rw [hc]
    simp [htail]

theorem selectItems_subset (g : Nat → Nat) (step : Nat) (pool : List MerchantItem) (k : Nat) :
    ∀ x ∈ selectItems g step pool k, x ∈ pool := by
  induction k generalizing step pool with
  | zero =>
    intro x hx
    simp [selectItems] at hx
  | succ k ih =>
    intro x hx
    unfold selectItems at hx
    cases hp : weightedPick pool (g step % totalWeight pool) with
    | none =>
      rw [hp] at hx
      simp at hx
    | some c =>
      rw [hp] at hx
      simp only [List.mem_cons] at hx
      rcases hx with rfl | hx
      · exact weightedPick_mem pool _ x hp
      · exact List.mem_of_mem_eraseP (ih (step + 1) _ x hx)

theorem selectItems_nodup (g : Nat → Nat) (step : Nat) (pool : List MerchantItem) (k : Nat)
    (hnd : (pool.map (·.id)).Nodup) :
    ((selectItems g step pool k).map (·.id)).Nodup := by
  induction k generalizing step pool with
  | zero => simp [selectItems]
  | succ k ih =>
    unfold selectItems
    cases hp : weightedPick pool (g step % totalWeight pool) with
    | none => simp
    | some c =>
      simp only [List.map_cons, List.nodup_cons]
      refine ⟨?_, ih (step + 1) _ (nodup_ids_eraseP pool _ hnd)⟩
      intro hmem
      obtain ⟨x, hx, hxid⟩ := List.mem_map.mp hmem
      have hx' := selectItems_subset g (step + 1) _ k x hx
      exact (mem_eraseP_of_nodup_ids pool c.id hnd x hx').2 hxid

theorem selectItems_congr (g g' : Nat → Nat) (h : ∀ n, g n = g' n)
    (step : Nat) (pool : List MerchantItem) (k : Nat) :
    selectItems g step pool k = selectItems g' step pool k := by
  induction k generalizing step pool with
  | zero => rfl
  | succ k ih =>
    unfold selectItems
    rw [h step]
    cases hp : weightedPick pool (g' step % totalWeight pool) with
    | none => simp [hp]
    | some c => simp [hp, ih]

theorem weightedPick_count (pool : List MerchantItem) (c : MerchantItem)
    (hnd : (pool.map (·.id)).Nodup) (hc : c ∈ pool) :
    (List.range (totalWeight pool)).countP
        (fun r => decide (weightedPick pool r = some c)) = effWeight c := by
  induction pool with
  | nil => simp at hc
  | cons i rest ih =>
    rw [totalWeight_cons, List.range_add, List.countP_append, List.countP_map]
    have hnd0 : (i.id :: rest.map (·.id)).Nodup := by simpa using hnd
    have hnd' : (rest.map (·.id)).Nodup := (List.nodup_cons.mp hnd0).2
    have hini : i.id ∉ rest.map (·.id) := (List.nodup_cons.mp hnd0).1
    rcases List.mem_cons.mp hc with rfl | hcr
    · have h1 : (List.range (effWeight c)).countP
          (fun r => decide (weightedPick (c :: rest) r = some c)) = effWeight c := by
        have hall : ∀ r ∈ List.range (effWeight c),
            (fun r => decide (weightedPick (c :: rest) r = some c)) r = true := by
          intro r hr
          have hrlt : r < effWeight c := List.mem_range.mp hr
          simp [weightedPick, hrlt]
        rw [List.countP_eq_length.mpr hall, List.length_range]
      have h2 : (List.range (totalWeight rest)).countP
          ((fun r => decide (weightedPick (c :: rest) r = some c)) ∘
            (fun x => effWeight c + x)) = 0 := by
        rw [List.countP_eq_zero]
        intro r _
        simp only [Function.comp_apply, weightedPick_shift, decide_eq_true_eq]
        intro heq
        exact hini (List.mem_map_of_mem _ (weightedPick_mem rest r c heq))
      rw [h1, h2]
      omega
    · have hcid : c.id ≠ i.id := by
        intro h
        exact hini (h ▸ List.mem_map_of_mem _ hcr)
      have h1 : (List.range (effWeight i)).countP
          (fun r => decide (weightedPick (i :: rest) r = some c)) = 0 := by
        rw [List.countP_eq_zero]
        intro r hr
        have hrlt : r < effWeight i := List.mem_range.mp hr
        simp only [decide_eq_true_eq]
        rw [show weightedPick (i :: rest) r = some i by simp [weightedPick, hrlt]]
        intro h
        injection h with h'
        exact hcid (by rw [← h'])
      have h2 : (List.range (totalWeight rest)).countP
          ((fun r => decide (weightedPick (i :: rest) r = some c)) ∘
            (fun x => effWeight i + x)) = effWeight c := by
        have hcg : ∀ r ∈ List.range (totalWeight rest),
            ((fun r => decide (weightedPick (i :: rest) r = some c)) ∘
              (fun x => effWeight i + x)) r = true ↔
            (fun r => decide (weightedPick rest r = some c)) r = true := by
          intro r _
          simp only [Function.comp_apply, weightedPick_shift]
        rw [List.countP_congr hcg]
        exact ih hnd' hcr
      rw [h1, h2]
      omega

/-! ## Lemmas about the persisted line items -/

theorem mkEntries_length (rid : Nat) (base : Nat) (sel : List MerchantItem) :
    (mkEntries rid base sel).length = sel.length := by
  induction sel generalizing base with
  | nil => rfl
  | cons i rest ih => simp [mkEntries, ih]

theorem mkEntries_filter_self (rid : Nat) (base : Nat) (sel : List MerchantItem) :
    (mkEntries rid base sel).filter (fun e => e.rotation_id == rid) = mkEntries rid base sel := by
  induction sel generalizing base with
  | nil => rfl
  | cons i rest ih => simp [mkEntries, List.filter_cons, ih]

theorem createNewRotation_empty (db : DB) (now : Nat) (g : Nat → Nat)
    (fault : Option StoreFault) (h : enabledItems db = []) :
    createNewRotationF db now g fault = (.ok none, db) := by
  simp [createNewRotationF, h]

theorem buyTxn_eval_insufficient (db : DB) (now pk : Nat) (entry : MerchantRotationItem)
    (guild : Option Nat) (q : PlayerRec)
    (hpk : playerByPk db pk = some q)
    (hnaff : canAfford q.money entry.price_snapshot = false) :
    buyTxn db now pk entry guild false = (.insufficientFundsTxn, db) := by
  simp [buyTxn, hpk, hnaff]

theorem buyTxn_eval_success (db : DB) (now pk : Nat) (entry : MerchantRotationItem)
    (guild : Option Nat) (q : PlayerRec)
    (hpk : playerByPk db pk = some q)
    (haff : canAfford q.money entry.price_snapshot = true) :
    buyTxn db now pk entry guild false =
      (.success,
       { db with
          players := db.players.map
            (fun p => if p.pk == pk then { p with money := p.money - entry.price_snapshot } else p),
          ballInstances := db.ballInstances ++ [⟨entry.item.ball, pk, entry.item.special, guild, true⟩],
          purchases := db.purchases ++ [⟨pk, entry.id, now⟩] }) := by
  simp [buyTxn, hpk, haff, debitPlayer]

/-! ## C3: weighted selection without replacement -/

/-- C3: for a pool of N ≥ 1 enabled items with distinct ids, the
generation loop selects exactly k = min(items_per_rotation, N) distinct
items drawn from the pool; each single draw over a remaining sub-pool
selects a member with multiplicity max(1, weight) out of the sub-pool's
total weight (probability proportional to the floored weight); an
extensionally equal random source reproduces the same selection; and the
persisted rotation's line items are built from exactly that selection. -/
theorem merchant_rotation_weighted_selection
    (db : DB) (now : Nat) (g : Nat → Nat)
    (hnd : ((enabledItems db).map (·.id)).Nodup)
    (hne : enabledItems db ≠ []) :
    (selectItems g 0 (enabledItems db)
        (min db.settings.items_per_rotation (enabledItems db).length)).length =
      min db.settings.items_per_rotation (enabledItems db).length ∧
    ((selectItems g 0 (enabledItems db)
        (min db.settings.items_per_rotation (enabledItems db).length)).map (·.id)).Nodup ∧
    (∀ x ∈ selectItems g 0 (enabledItems db)
        (min db.settings.items_per_rotation (enabledItems db).length), x ∈ enabledItems db) ∧
    (∀ (sub : List MerchantItem) (c : MerchantItem), (sub.map (·.id)).Nodup → c ∈ sub →
      (List.range (totalWeight sub)).countP
        (fun r => decide (weightedPick sub r = some c)) = effWeight c) ∧
    (∀ g', (∀ n, g n = g' n) →
      selectItems g' 0 (enabledItems db)
          (min db.settings.items_per_rotation (enabledItems db).length) =
        selectItems g 0 (enabledItems db)
          (min db.settings.items_per_rotation (enabledItems db).length)) ∧
    createNewRotationF db now g none =
      (.ok (some ⟨freshRotationId db, now, now + db.settings.rotation_minutes * 60⟩),
       { db with
          rotations := db.rotations ++
            [⟨freshRotationId db, now, now + db.settings.rotation_minutes * 60⟩],
          rotationItems := db.rotationItems ++
            mkEntries (freshRotationId db) (freshEntryId db)
              (selectItems g 0 (enabledItems db)
                (min db.settings.items_per_rotation (enabledItems db).length)),
          settings := { db.settings with last_rotation_at := some now } }) := by
  refine ⟨selectItems_length g 0 (enabledItems db) _ (Nat.min_le_right _ _),
    selectItems_nodup g 0 (enabledItems db) _ hnd,
    selectItems_subset g 0 (enabledItems db) _,
    fun sub c h1 h2 => weightedPick_count sub c h1 h2,
    fun g' h => (selectItems_congr g g' h 0 (enabledItems db) _).symm,
    createNewRotation_ok db now g hne⟩

/-- C3 witness: on `dbSel` (two enabled items, one with weight ≤ 0) the
selection with source `fun n => n` has length min(2,2) = 2 and distinct
ids. -/
theorem merchant_rotation_weighted_selection_witness :
    (selectItems (fun n => n) 0 (enabledItems dbSel)
        (min dbSel.settings.items_per_rotation (enabledItems dbSel).length)).length =
      min dbSel.settings.items_per_rotation (enabledItems dbSel).length ∧
    ((selectItems (fun n => n) 0 (enabledItems dbSel)
        (min dbSel.settings.items_per_rotation (enabledItems dbSel).length)).map (·.id)).Nodup :=
  ⟨(merchant_rotation_weighted_selection dbSel 0 (fun n => n) (by decide) (by decide)).1,
   (merchant_rotation_weighted_selection dbSel 0 (fun n => n) (by decide) (by decide)).2.1⟩

/-! ## C9: no empty rotation -/

/-- C9 counterexample: with `items_per_rotation = 0` and one enabled
catalog item, `ensure_rotation` persists a rotation record with zero line
items, so "never persists a rotation with zero line items" fails as
stated. -/
theorem merchant_empty_rotation_cex :
    ∃ rot, (ensureRotation dbZero 0 (fun _ => 0) none).1 = .ok (some rot) ∧
      rot ∈ (ensureRotation dbZero 0 (fun _ => 0) none).2.rotations ∧
      rotationEntries (ensureRotation dbZero 0 (fun _ => 0) none).2 rot = [] :=
  ⟨⟨1, 0, 3600⟩, rfl, by decide, by decide⟩

/-- C9 (amended): when zero enabled items exist, rotation creation
returns unavailable with every store unchanged, and `ensure_rotation`
leaves the stores unchanged; and provided `items_per_rotation ≥ 1` (the
hypothesis the counterexample forces), every created rotation carries
exactly min(items_per_rotation, N) line items, which is at least one. -/
theorem merchant_rotation_item_count
    (db : DB) (now : Nat) (g : Nat → Nat) (fault : Option StoreFault) :
    (enabledItems db = [] → createNewRotationF db now g fault = (.ok none, db)) ∧
    (enabledItems db = [] → (ensureRotation db now g fault).2 = db) ∧
    (enabledItems db ≠ [] → 1 ≤ db.settings.items_per_rotation →
      (∀ e ∈ db.rotationItems, e.rotation_id ≠ freshRotationId db) →
      ∃ rot db', createNewRotationF db now g none = (.ok (some rot), db') ∧
        (rotationEntries db' rot).length =
          min db.settings.items_per_rotation (enabledItems db).length ∧
        1 ≤ (rotationEntries db' rot).length) := by
  refine ⟨createNewRotation_empty db now g fault, ?_, ?_⟩
  · intro hempty
    cases hen : db.settings.enabled with
    | false => simp [ensureRotation, hen]
    | true =>
      rcases hrot : getActiveRotation db now with _ | r
      · simp [ensureRotation, hen, hrot, createNewRotation_empty db now g fault hempty]
      · by_cases hlt : now < r.ends_at
        · simp [ensureRotation, hen, hrot, hlt]
        · simp [ensureRotation, hen, hrot, hlt, createNewRotation_empty db now g fault hempty]
  · intro hne hk hfresh
    have hcr := createNewRotation_ok db now g hne
    refine ⟨⟨freshRotationId db, now, now + db.settings.rotation_minutes * 60⟩,
      (createNewRotationF db now g none).2, by rw [hcr], ?_, ?_⟩
    · rw [hcr]
      unfold rotationEntries
      simp only
      rw [List.filter_append]
      have hold : db.rotationItems.filter
          (fun e => e.rotation_id == freshRotationId db) = [] := by
        rw [List.filter_eq_nil_iff]
        intro e he
        simpa using hfresh e he
      rw [hold, mkEntries_filter_self]
      simp only [List.nil_append]
      rw [mkEntries_length]
      exact selectItems_length g 0 (enabledItems db) _ (Nat.min_le_right _ _)
    · rw [hcr]
      unfold rotationEntries
      simp only
      rw [List.filter_append]
      have hold : db.rotationItems.filter
          (fun e => e.rotation_id == freshRotationId db) = [] := by
        rw [List.filter_eq_nil_iff]
        intro e he
        simpa using hfresh e he
      rw [hold, mkEntries_filter_self]
      simp only [List.nil_append]
      rw [mkEntries_length]
      rw [selectItems_length g 0 (enabledItems db) _ (Nat.min_le_right _ _)]
      rw [Nat.le_min]
      exact ⟨hk, List.length_pos.mpr hne⟩

/-- C9 witness: on `dbFresh` (one enabled item, `items_per_rotation = 1`)
the created rotation has exactly one line item. -/
theorem merchant_rotation_item_count_witness :
    ∃ rot db', createNewRotationF dbFresh 7 (fun _ => 0) none = (.ok (some rot), db') ∧
      (rotationEntries db' rot).length =
        min dbFresh.settings.items_per_rotation (enabledItems dbFresh).length ∧
      1 ≤ (rotationEntries db' rot).length :=
  (merchant_rotation_item_count dbFresh 7 (fun _ => 0) none).2.2
    (by decide) (by decide) (by decide)

/-! ## C6: same-player concurrent purchases cannot double-spend -/

/-- C6: two purchase attempts by the same player, each individually
affordable but not jointly (price ≤ balance < 2·price), with both
precondition phases reading the initial state and the two atomic sections
serialized by the per-player lock: the first commits successfully, the
second's authoritative re-check rejects it with insufficient funds and
leaves the stores unchanged, and the final balance is the initial balance
minus one `price_snapshot`, which is not negative. -/
theorem merchant_concurrent_double_spend
    (db : DB) (now uid item_id : Nat) (guild : Option Nat)
    (rot : MerchantRotation) (entry : MerchantRotationItem) (player : PlayerRec)
    (hen : db.settings.enabled = true)
    (hrot : getActiveRotation db now = some rot)
    (hent : (rotationEntries db rot).find? (fun e => e.id == item_id) = some entry)
    (hpd : playerByDiscord db uid = some player)
    (hpk : playerByPk db player.pk = some player)
    (hcool : getCooldownEnd db now player.pk db.settings.purchase_cooldown_seconds = none)
    (hb1 : entry.price_snapshot ≤ player.money)
    (hb2 : player.money < 2 * entry.price_snapshot) :
    (buy db now uid item_id guild false).1 = .success ∧
    playerByPk (buy db now uid item_id guild false).2 player.pk =
      some { player with money := player.money - entry.price_snapshot } ∧
    buyTxn (buy db now uid item_id guild false).2 now player.pk entry guild false =
      (.insufficientFundsTxn, (buy db now uid item_id guild false).2) ∧
    0 ≤ player.money - entry.price_snapshot := by
  have haff : canAfford player.money entry.price_snapshot = true := by
    simp [canAfford, hb1]
  have h1 : buy db now uid item_id guild false = buyTxn db now player.pk entry guild false :=
    buy_eval_txn db now uid item_id guild false rot entry player hen hrot hent hpd hcool haff
  have h2 := buyTxn_eval_success db now player.pk entry guild player hpk haff
  have hpkA : playerByPk
      { db with
          players := db.players.map
            (fun p => if p.pk == player.pk then
              { p with money := p.money - entry.price_snapshot } else p),
          ballInstances := db.ballInstances ++
            [⟨entry.item.ball, player.pk, entry.item.special, guild, true⟩],
          purchases := db.purchases ++ [⟨player.pk, entry.id, now⟩] } player.pk =
      some { player with money := player.money - entry.price_snapshot } := by
    unfold playerByPk
    simp only
    rw [find?_debit, show db.players.find? (fun p => p.pk == player.pk) = some player from hpk]
    rfl
  have hnaff : canAfford (player.money - entry.price_snapshot) entry.price_snapshot = false := by
    rw [show canAfford (player.money - entry.price_snapshot) entry.price_snapshot =
      decide (entry.price_snapshot ≤ player.money - entry.price_snapshot) from rfl]
    rw [decide_eq_false_iff_not]
    omega
  refine ⟨by rw [h1, h2], by rw [h1, h2]; exact hpkA, ?_, by omega⟩
  rw [h1, h2]
  exact buyTxn_eval_insufficient _ now player.pk entry guild _ hpkA hnaff

/-- C6 witness: on `dbBase` (balance 100, price 80) the first attempt
succeeds leaving balance 20, the second is rejected by the authoritative
check with the stores unchanged, and 100 − 80 ≥ 0. -/
theorem merchant_concurrent_double_spend_witness :
    (buy dbBase 10 42 1 none false).1 = .success ∧
    playerByPk (buy dbBase 10 42 1 none false).2 playerA.pk =
      some { playerA with money := playerA.money - entryA.price_snapshot } ∧
    buyTxn (buy dbBase 10 42 1 none false).2 10 playerA.pk entryA none false =
      (.insufficientFundsTxn, (buy dbBase 10 42 1 none false).2) ∧
    0 ≤ playerA.money - entryA.price_snapshot :=
  merchant_concurrent_double_spend dbBase 10 42 1 none rotA entryA playerA
    (by decide) (by decide) (by decide) (by decide) (by decide) (by decide)
    (by decide) (by decide)
